import Mathlib

/-!
Verification of the stock-analysis frontend's classification logic.

The definitions below are shallow embeddings of the TypeScript source:
  * comparison-view.tsx — quality raters (rateRisk, rateDividends,
    rateNumeric), the per-metric rating configuration, the trend badge
    CompareTrendBadge, and the composite performance index
    (normaliseSeries, buildCompositeIndex);
  * HealthCheck — getPERating and the margin / EPS-growth classifications;
  * MoneyTalk — the Growing/Declining trend badges;
  * CompanyOverview — the 52-week range position;
  * final-verdict.tsx — getRiskConfig.

JavaScript values are embedded as follows: a nullable number becomes
Option ℚ (none = null/undefined, and for parseFloat inputs also any
non-numeric string, since parseFloat yields NaN on those); a nullable
string becomes Option String; String.prototype.toLowerCase is jsToLower
(ASCII, which covers every string the code compares against);
String.prototype.includes is strIncludes; Math.round is jsRound
(floor of x + 1/2, JS half-toward-positive-infinity rounding).
-/

namespace StockAnalysis

/-- Badge colour of a comparison-view quality rating
(the "green" | "yellow" | "red" union type). -/
inductive BadgeColor where
  | green
  | yellow
  | red
  deriving DecidableEq, Repr

/-- The QualityRating interface of comparison-view.tsx. -/
structure QualityRating where
  label : String
  color : BadgeColor
  deriving DecidableEq, Repr

/-- Does the character list starting here begin with the pattern? -/
def listStartsWith : List Char → List Char → Bool
  | _, [] => true
  | [], _ :: _ => false
  | c :: cs, p :: ps => c == p && listStartsWith cs ps

/-- Does the pattern occur as a contiguous run inside the list? -/
def listHasSub : List Char → List Char → Bool
  | [], pat => pat.isEmpty
  | c :: cs, pat => listStartsWith (c :: cs) pat || listHasSub cs pat

/-- Model of JS String.prototype.includes: substring occurrence. -/
def strIncludes (s pat : String) : Bool :=
  listHasSub s.data pat.data

/-- Model of JS String.prototype.toLowerCase (ASCII range, which covers
every comparison string appearing in the sources). -/
def jsToLower (s : String) : String :=
  ⟨s.data.map Char.toLower⟩

/-- From rateRisk in comparison-view.tsx: `String(v ?? "").toLowerCase()`
then exact comparison against "low" / "moderate"; anything else is High
Risk. The `number | string | null` input is embedded as Option String
(the risk value is a string wherever it is produced). -/
def rateRisk (v : Option String) : QualityRating :=
  if jsToLower (v.getD "") == "low" then ⟨"Low Risk", .green⟩
  else if jsToLower (v.getD "") == "moderate" then ⟨"Medium Risk", .yellow⟩
  else ⟨"High Risk", .red⟩

/-- From rateDividends in comparison-view.tsx: lowercase the input, then
test `includes("consistent") || includes("regular")`, then
`includes("irregular")`, else No Dividends. -/
def rateDividends (v : Option String) : QualityRating :=
  if strIncludes (jsToLower (v.getD "")) "consistent"
      || strIncludes (jsToLower (v.getD "")) "regular" then
    ⟨"Consistent", .green⟩
  else if strIncludes (jsToLower (v.getD "")) "irregular" then
    ⟨"Irregular", .yellow⟩
  else ⟨"No Dividends", .red⟩

/-- From rateNumeric in comparison-view.tsx. The first guard
(`isNaN(parseFloat(String(v ?? "")))`) is embedded by the Option: none
stands for null or a non-numeric value, some n for a value that coerces
to the number n. The five threshold arguments are `number | null`. -/
def rateNumeric (v goodBelow goodAbove fairBelow fairAbove : Option ℚ)
    (l0 l1 l2 : String) : QualityRating :=
  match v with
  | none => ⟨"N/A", .yellow⟩
  | some n =>
    if goodBelow.any (fun x => decide (n < x)) then ⟨l0, .green⟩
    else if goodAbove.any (fun x => decide (x ≤ n)) then ⟨l0, .green⟩
    else if fairBelow.isSome && fairAbove.isSome
        && fairBelow.any (fun x => decide (x ≤ n))
        && fairAbove.any (fun x => decide (n ≤ x)) then ⟨l1, .yellow⟩
    else if fairBelow.any (fun x => decide (x ≤ n)) && fairAbove.isNone then ⟨l1, .yellow⟩
    else if fairAbove.any (fun x => decide (n ≤ x)) && fairBelow.isNone then ⟨l1, .yellow⟩
    else ⟨l2, .red⟩

/-- METRIC_CONFIG[0].rateValue (P/E Ratio) in comparison-view.tsx:
`rateNumeric(v, 15, null, 15, 25, ["Looks Cheap", "Fair Price", "Expensive"])`. -/
def peRateValue (v : Option ℚ) : QualityRating :=
  rateNumeric v (some 15) none (some 15) (some 25) "Looks Cheap" "Fair Price" "Expensive"

/-- METRIC_CONFIG[1].rateValue (Net Profit Margin):
`rateNumeric(v, null, 15, 5, 15, ["Healthy", "Average", "Low"])`. -/
def marginRateValue (v : Option ℚ) : QualityRating :=
  rateNumeric v none (some 15) (some 5) (some 15) "Healthy" "Average" "Low"

/-- METRIC_CONFIG[2].rateValue (EPS Growth):
`rateNumeric(v, null, 10, 0, 10, ["Strong Growth", "Stable", "Declining"])`. -/
def epsGrowthRateValue (v : Option ℚ) : QualityRating :=
  rateNumeric v none (some 10) (some 0) (some 10) "Strong Growth" "Stable" "Declining"

/-- METRIC_CONFIG[3].rateValue (1-Year Price Change):
`rateNumeric(v, null, 20, 0, 20, ["Strong Rally", "Moderate", "Lost Value"])`. -/
def priceChangeRateValue (v : Option ℚ) : QualityRating :=
  rateNumeric v none (some 20) (some 0) (some 20) "Strong Rally" "Moderate" "Lost Value"

/-- METRIC_CONFIG[4].rateValue (Free Float):
`rateNumeric(v, null, 40, 20, 40, ["Very Liquid", "Moderate", "Low Liquidity"])`. -/
def freeFloatRateValue (v : Option ℚ) : QualityRating :=
  rateNumeric v none (some 40) (some 20) (some 40) "Very Liquid" "Moderate" "Low Liquidity"

/-- Return shape of getPERating in the HealthCheck component. -/
structure PERating where
  label : String
  color : String
  bgColor : String
  deriving DecidableEq, Repr

/-- From getPERating in the HealthCheck component:
null or ≤ 0 → N/A; < 15 → Looks Cheap; ≤ 25 → Fair Price; else Expensive. -/
def getPERating (pe : Option ℚ) : PERating :=
  match pe with
  | none => ⟨"N/A", "#404E3F", "#E5E0D9"⟩
  | some p =>
    if p ≤ 0 then ⟨"N/A", "#404E3F", "#E5E0D9"⟩
    else if p < 15 then ⟨"Looks Cheap", "#4BC232", "#4BC232"⟩
    else if p ≤ 25 then ⟨"Fair Price", "#d97706", "#d97706"⟩
    else ⟨"Expensive", "#ef4444", "#ef4444"⟩

/-- The spec's price/earnings classification, written from its words
(absent or ≤ 0 → N/A; 0 < pe < 15 → cheap; 15 ≤ pe ≤ 25 → fair;
pe > 25 → expensive), as the labels the code uses. The guards are
tested from the top of the scale down, so each branch is reached
exactly on the spec's interval. -/
def specPELabel : Option ℚ → String
  | none => "N/A"
  | some p =>
    if 25 < p then "Expensive"
    else if 15 ≤ p then "Fair Price"
    else if 0 < p then "Looks Cheap"
    else "N/A"

/-- Three-way classification used by the single-stock health view. -/
inductive HealthClass where
  | healthy
  | average
  | low
  deriving DecidableEq, Repr

/-- From the HealthCheck component's net-profit-margin block: the bar
colour and the explanation sentence are both chosen by the chain
`margin >= 15 ? healthy : margin >= 5 ? average : low`. -/
def healthCheckMarginClass (m : ℚ) : HealthClass :=
  if 15 ≤ m then .healthy else if 5 ≤ m then .average else .low

/-- The spec's margin classification, written from its words:
m < 5 → low; 5 ≤ m < 15 → average; m ≥ 15 → healthy. -/
def specMarginClass (m : ℚ) : HealthClass :=
  if m < 5 then .low else if m < 15 then .average else .healthy

/-- Three-way growth classification used by the single-stock health view. -/
inductive GrowthClass where
  | strong
  | stable
  | declining
  deriving DecidableEq, Repr

/-- From the HealthCheck component's EPS-growth block: the explanation
sentence is chosen by `growth >= 10 ? strong : growth >= 0 ? stable :
declining`. -/
def healthCheckGrowthClass (g : ℚ) : GrowthClass :=
  if 10 ≤ g then .strong else if 0 ≤ g then .stable else .declining

/-- The spec's EPS-growth classification, written from its words:
g < 0 → declining; 0 ≤ g < 10 → stable; g ≥ 10 → strong. -/
def specGrowthClass (g : ℚ) : GrowthClass :=
  if g < 0 then .declining else if g < 10 then .stable else .strong

/-- Claim C1, counterexample: at a present price/earnings value of 0 the
two raters disagree — the comparison-view badge calls it "Looks Cheap"
while the health-view getPERating (and the claimed classification)
give "N/A". -/
theorem pe_raters_differ_at_zero :
    (peRateValue (some 0)).label = "Looks Cheap" ∧
    (getPERating (some 0)).label = "N/A" ∧
    (peRateValue (some 0)).label ≠ specPELabel (some 0) := by
  decide

/-- Claim C1, amended: getPERating classifies exactly as the claim states
(absent or ≤ 0 → N/A; 0 < pe < 15 → cheap; 15 ≤ pe ≤ 25 → fair;
pe > 25 → expensive); the comparison-view badge METRIC_CONFIG[0].rateValue
agrees with it for an absent value and for every pe > 0, but rates a
present pe ≤ 0 as "Looks Cheap" instead of "N/A". -/
theorem pe_rating_amended : ∀ pe : Option ℚ,
    (getPERating pe).label = specPELabel pe ∧
    (peRateValue pe).label =
      (match pe with
       | none => "N/A"
       | some p => if p ≤ 0 then "Looks Cheap" else specPELabel (some p)) := by
  intro pe
  rcases pe with _ | p
  · exact ⟨rfl, rfl⟩
  rcases le_or_lt p 0 with h0 | h0
  · have h15 : p < 15 := by linarith
    have h25 : ¬ 25 < p := by linarith
    have h15le : ¬ 15 ≤ p := by linarith
    have hp : ¬ 0 < p := not_lt.2 h0
    simp [specPELabel, getPERating, peRateValue, rateNumeric, h0, h15, h25, h15le, hp]
  have h0' : ¬ p ≤ 0 := not_le.2 h0
  rcases lt_or_le p 15 with h15 | h15
  · have h25 : ¬ 25 < p := by linarith
    have h15le : ¬ 15 ≤ p := not_le.2 h15
    simp [specPELabel, getPERating, peRateValue, rateNumeric, h0', h15, h25, h15le, h0]
  have h15' : ¬ p < 15 := not_lt.2 h15
  rcases le_or_lt p 25 with h25 | h25
  · have h25' : ¬ 25 < p := not_lt.2 h25
    simp [specPELabel, getPERating, peRateValue, rateNumeric, h0', h15', h15, h25, h25']
  have h25' : ¬ p ≤ 25 := not_le.2 h25
  simp [specPELabel, getPERating, peRateValue, rateNumeric, h0', h15', h25', h25]

/-- Claim C5: a present net profit margin classifies m ≥ 15 → healthy,
5 ≤ m < 15 → average, m < 5 → low, and the single-stock health view and
the comparison-view badge METRIC_CONFIG[1].rateValue agree with that
classification at every value. -/
theorem margin_classification_consistent : ∀ m : ℚ,
    healthCheckMarginClass m = specMarginClass m ∧
    (marginRateValue (some m)).label =
      (match specMarginClass m with
       | .healthy => "Healthy"
       | .average => "Average"
       | .low => "Low") := by
  intro m
  rcases lt_or_le m 5 with h5 | h5
  · have h15 : ¬ 15 ≤ m := by linarith
    have h5' : ¬ 5 ≤ m := not_le.2 h5
    simp [healthCheckMarginClass, specMarginClass, marginRateValue, rateNumeric, h5, h5', h15]
  have h5' : ¬ m < 5 := not_lt.2 h5
  rcases lt_or_le m 15 with h15 | h15
  · have h15' : ¬ 15 ≤ m := not_le.2 h15
    have hle : m ≤ 15 := le_of_lt h15
    simp [healthCheckMarginClass, specMarginClass, marginRateValue, rateNumeric,
      h5, h5', h15, h15', hle]
  have h15' : ¬ m < 15 := not_lt.2 h15
  simp [healthCheckMarginClass, specMarginClass, marginRateValue, rateNumeric, h15, h15', h5']

/-- Claim C6: a present EPS-growth value classifies g ≥ 10 → strong,
0 ≤ g < 10 → stable, g < 0 → declining, and the single-stock health view
and the comparison-view badge METRIC_CONFIG[2].rateValue agree with that
classification at every value. -/
theorem eps_growth_classification_consistent : ∀ g : ℚ,
    healthCheckGrowthClass g = specGrowthClass g ∧
    (epsGrowthRateValue (some g)).label =
      (match specGrowthClass g with
       | .strong => "Strong Growth"
       | .stable => "Stable"
       | .declining => "Declining") := by
  intro g
  rcases lt_or_le g 0 with hz | hz
  · have h10 : ¬ 10 ≤ g := by linarith
    have hz' : ¬ 0 ≤ g := not_le.2 hz
    simp [healthCheckGrowthClass, specGrowthClass, epsGrowthRateValue, rateNumeric,
      hz, hz', h10]
  have hz' : ¬ g < 0 := not_lt.2 hz
  rcases lt_or_le g 10 with h10 | h10
  · have h10' : ¬ 10 ≤ g := not_le.2 h10
    have hle : g ≤ 10 := le_of_lt h10
    simp [healthCheckGrowthClass, specGrowthClass, epsGrowthRateValue, rateNumeric,
      hz, hz', h10, h10', hle]
  have h10' : ¬ g < 10 := not_lt.2 h10
  simp [healthCheckGrowthClass, specGrowthClass, epsGrowthRateValue, rateNumeric, h10, h10', hz']

/-- Claim C8: rateNumeric answers the neutral badge ⟨"N/A", yellow⟩ on an
absent (null or non-numeric) value whatever the thresholds and labels,
and in particular each of the five numeric metric configurations does. -/
theorem absent_value_rates_neutral : ∀ (gB gA fB fA : Option ℚ) (l0 l1 l2 : String),
    rateNumeric none gB gA fB fA l0 l1 l2 = ⟨"N/A", .yellow⟩ ∧
    peRateValue none = ⟨"N/A", .yellow⟩ ∧
    marginRateValue none = ⟨"N/A", .yellow⟩ ∧
    epsGrowthRateValue none = ⟨"N/A", .yellow⟩ ∧
    priceChangeRateValue none = ⟨"N/A", .yellow⟩ ∧
    freeFloatRateValue none = ⟨"N/A", .yellow⟩ :=
  fun _ _ _ _ _ _ _ => ⟨rfl, rfl, rfl, rfl, rfl, rfl⟩

/-- Return shape of getRiskConfig in final-verdict.tsx. -/
structure RiskConfig where
  percent : ℚ
  color : String
  label : String
  deriving DecidableEq, Repr

/-- From getRiskConfig in final-verdict.tsx: lowercase the input, then
`includes("low")` → Low Risk, `includes("high") || includes("very")` →
High Risk, else Medium Risk. -/
def getRiskConfig (risk : String) : RiskConfig :=
  if strIncludes (jsToLower risk) "low" then ⟨25, "#4BC232", "Low Risk"⟩
  else if strIncludes (jsToLower risk) "high" || strIncludes (jsToLower risk) "very" then
    ⟨85, "#ef4444", "High Risk"⟩
  else ⟨50, "#d97706", "Medium Risk"⟩

/-- Claim C3, failing input: the dividend rater tests
`includes("consistent") || includes("regular")` before
`includes("irregular")`, and the string "irregular" contains "regular",
so "irregular" (in any casing) lands in the Consistent branch and the
explicit Irregular branch below it can never fire. "consistent", "none"
and the absent value behave as claimed. -/
theorem dividend_irregular_rated_consistent :
    rateDividends (some "irregular") = ⟨"Consistent", .green⟩ ∧
    rateDividends (some "Irregular") = ⟨"Consistent", .green⟩ ∧
    (rateDividends (some "irregular")).label ≠ "Irregular" ∧
    rateDividends (some "consistent") = ⟨"Consistent", .green⟩ ∧
    rateDividends (some "none") = ⟨"No Dividends", .red⟩ ∧
    rateDividends none = ⟨"No Dividends", .red⟩ := by
  decide

/-- Claim C7: both risk raters look only at the lowercased input, so any
two strings with the same lowercasing rate identically; and every casing
of the canonical values "Low", "Moderate", "High" classifies as Low,
Medium and High risk respectively in both the comparison view and the
final-verdict view. -/
theorem risk_rating_case_insensitive :
    (∀ s t : String, jsToLower s = jsToLower t →
      rateRisk (some s) = rateRisk (some t) ∧ getRiskConfig s = getRiskConfig t) ∧
    (∀ s : String, jsToLower s = "low" →
      (rateRisk (some s)).label = "Low Risk" ∧ (getRiskConfig s).label = "Low Risk") ∧
    (∀ s : String, jsToLower s = "moderate" →
      (rateRisk (some s)).label = "Medium Risk" ∧ (getRiskConfig s).label = "Medium Risk") ∧
    (∀ s : String, jsToLower s = "high" →
      (rateRisk (some s)).label = "High Risk" ∧ (getRiskConfig s).label = "High Risk") := by
  refine ⟨fun s t h => ⟨?_, ?_⟩, fun s h => ⟨?_, ?_⟩, fun s h => ⟨?_, ?_⟩, fun s h => ⟨?_, ?_⟩⟩
  · simp only [rateRisk, Option.getD_some, h]
  · simp only [getRiskConfig, h]
  all_goals simp only [rateRisk, getRiskConfig, Option.getD_some, h]
  all_goals decide

/-- The case-insensitivity theorem is not vacuous: a concrete pair of
casings of "moderate" on which it answers, with the hypotheses
discharged by evaluation. -/
theorem risk_rating_case_insensitive_example :
    rateRisk (some "MoDeRaTe") = rateRisk (some "moderate") ∧
    (rateRisk (some "MoDeRaTe")).label = "Medium Risk" ∧
    (getRiskConfig "MoDeRaTe").label = "Medium Risk" :=
  ⟨(risk_rating_case_insensitive.1 "MoDeRaTe" "moderate" (by decide)).1,
   (risk_rating_case_insensitive.2.2.1 "MoDeRaTe" (by decide)).1,
   (risk_rating_case_insensitive.2.2.1 "MoDeRaTe" (by decide)).2⟩

/-- The FinancialYear record of types/stock.ts: an annual financial
period with its nullable figures. -/
structure FinancialYear where
  period : String
  sales : Option ℚ
  total_income : Option ℚ
  profit_after_tax : Option ℚ
  eps : Option ℚ
  deriving DecidableEq, Repr

/-- Lexicographic ≤ on character lists (code points). -/
def listLe : List Char → List Char → Bool
  | [], _ => true
  | _ :: _, [] => false
  | a :: as, b :: bs => if a < b then true else if b < a then false else listLe as bs

/-- The string order used when MoneyTalk sorts periods
(`a.period.localeCompare(b.period)`), modelled as code-point
lexicographic order — the period labels are plain ASCII year strings. -/
def strLe (a b : String) : Bool :=
  listLe a.data b.data

/-- Insert one financial year into a period-sorted list. -/
def insertByPeriod (f : FinancialYear) : List FinancialYear → List FinancialYear
  | [] => [f]
  | g :: gs => if strLe f.period g.period then f :: g :: gs else g :: insertByPeriod f gs

/-- MoneyTalk's `[...financials].sort((a, b) => a.period.localeCompare(b.period))`
as an insertion sort. -/
def sortByPeriod : List FinancialYear → List FinancialYear
  | [] => []
  | f :: fs => insertByPeriod f (sortByPeriod fs)

/-- MoneyTalk's value series for one field:
`sorted.map((f) => f.total_income ?? 0)` (and the same for
profit_after_tax) — note the `?? 0`, substituting 0 for an absent value. -/
def moneyTalkValues (field : FinancialYear → Option ℚ)
    (financials : List FinancialYear) : List ℚ :=
  (sortByPeriod financials).map (fun f => (field f).getD 0)

/-- MoneyTalk's Growing/Declining trend decision:
`values.length >= 2 && values[values.length - 1] > values[0]`
(isGrowingIncome / isGrowingProfit; the TrendBadge shows Growing on
true and Declining on false). -/
def moneyTalkIsGrowing (field : FinancialYear → Option ℚ)
    (financials : List FinancialYear) : Bool :=
  decide (2 ≤ (moneyTalkValues field financials).length) &&
    decide ((moneyTalkValues field financials).getD 0 0 <
      (moneyTalkValues field financials).getD
        ((moneyTalkValues field financials).length - 1) 0)

/-- From CompareTrendBadge in comparison-view.tsx: drop the null values,
render no badge (none) when fewer than two remain, else Growing (some
true) iff the last non-null value exceeds the first. -/
def compareTrendIsGrowing (values : List (Option ℚ)) : Option Bool :=
  if (values.filterMap id).length < 2 then none
  else some (decide ((values.filterMap id).getD 0 0 <
    (values.filterMap id).getD ((values.filterMap id).length - 1) 0))

/-- Replace an absent total_income by an explicit reported 0. -/
def zeroFillIncome (f : FinancialYear) : FinancialYear :=
  { f with total_income := some (f.total_income.getD 0) }

theorem zeroFillIncome_period (f : FinancialYear) :
    (zeroFillIncome f).period = f.period := rfl

theorem filterMap_id_map_some (l : List ℚ) : (l.map some).filterMap id = l := by
  induction l with
  | nil => rfl
  | cons x xs ih => simp [List.filterMap_cons, ih]

theorem insertByPeriod_map_zeroFill (l : List FinancialYear) (f : FinancialYear) :
    insertByPeriod (zeroFillIncome f) (l.map zeroFillIncome) =
      (insertByPeriod f l).map zeroFillIncome := by
  induction l with
  | nil => rfl
  | cons g gs ih =>
    simp only [List.map_cons, insertByPeriod, zeroFillIncome_period]
    by_cases h : strLe f.period g.period
    · simp [h]
    · simp [h, ih]

theorem sortByPeriod_map_zeroFill (l : List FinancialYear) :
    sortByPeriod (l.map zeroFillIncome) = (sortByPeriod l).map zeroFillIncome := by
  induction l with
  | nil => rfl
  | cons f fs ih =>
    simp only [List.map_cons, sortByPeriod, ih, insertByPeriod_map_zeroFill]

theorem moneyTalkValues_zeroFill (l : List FinancialYear) :
    moneyTalkValues (fun f => f.total_income) (l.map zeroFillIncome) =
      moneyTalkValues (fun f => f.total_income) l := by
  simp only [moneyTalkValues, sortByPeriod_map_zeroFill, List.map_map]
  rfl

/-- Claim C2, counterexample: on periods 2020 (absent income), 2021
(income 100) and 2022 (income 50), MoneyTalk's badge says Growing —
it zero-fills the absent 2020 value and compares 50 against 0 — while
the exclusion-based classification of the very same chronological
series (CompareTrendBadge's rule) compares 50 against 100 and says
Declining. -/
theorem moneytalk_counts_absent_as_zero :
    moneyTalkIsGrowing (fun f => f.total_income)
      [⟨"2020", none, none, none, none⟩, ⟨"2021", none, some 100, none, none⟩,
        ⟨"2022", none, some 50, none, none⟩] = true ∧
    compareTrendIsGrowing
      ([⟨"2020", none, none, none, none⟩, ⟨"2021", none, some 100, none, none⟩,
        ⟨"2022", none, some 50, none, none⟩].map
          (fun f : FinancialYear => f.total_income)) = some false := by
  decide

/-- Claim C2, amended: CompareTrendBadge does exclude absent periods —
its decision is unchanged when the absent entries are removed from the
series — but MoneyTalk's Growing/Declining badge instead substitutes 0
for an absent value: its decision is unchanged when every absent
total_income is replaced by an explicit reported 0. -/
theorem trend_badges_absent_handling :
    (∀ values : List (Option ℚ),
      compareTrendIsGrowing values =
        compareTrendIsGrowing ((values.filterMap id).map some)) ∧
    (∀ financials : List FinancialYear,
      moneyTalkIsGrowing (fun f => f.total_income) financials =
        moneyTalkIsGrowing (fun f => f.total_income) (financials.map zeroFillIncome)) := by
  constructor
  · intro values
    simp only [compareTrendIsGrowing, filterMap_id_map_some]
  · intro financials
    simp only [moneyTalkIsGrowing, moneyTalkValues_zeroFill]

/-- Per-metric outcome of the comparison ("a" | "b" | "tie"). -/
inductive Winner where
  | a
  | b
  | tie
  deriving DecidableEq, Repr

/-- Modelled from the spec: the per-metric resolution of the
ComparisonEngine (the backend `compare` implementation is not among
the repository files; spec §4.2 defines it). Both values absent → tie;
exactly one absent → the present side wins; both present → exact
equality is a tie, otherwise the metric's direction decides. -/
def resolveNumeric (va vb : Option ℚ) (lowerIsBetter : Bool) : Winner :=
  match va, vb with
  | none, none => .tie
  | some _, none => .a
  | none, some _ => .b
  | some x, some y =>
    if x = y then .tie
    else if (if lowerIsBetter then x < y else y < x) then .a else .b

/-- Modelled from the spec: a categorical metric (risk, dividend track
record) compared through its rank in the spec's total order — higher
rank is better (Low=2 > Moderate=1 > High=0; consistent=2 >
irregular=1 > none=0). -/
def resolveRanked (ra rb : Option ℕ) : Winner :=
  match ra, rb with
  | none, none => .tie
  | some _, none => .a
  | none, some _ => .b
  | some x, some y => if x = y then .tie else if y < x then .a else .b

/-- Modelled from the spec: the slice of a CompanyRecord the seven-metric
catalog reads (spec §3 and §4.2) — each field nullable. -/
structure CompanyRecordM where
  pe_ratio : Option ℚ
  net_profit_margin : Option ℚ
  eps_growth : Option ℚ
  year_change_percent : Option ℚ
  free_float_percent : Option ℚ
  risk_rank : Option ℕ
  dividend_rank : Option ℕ
  deriving DecidableEq, Repr

/-- Modelled from the spec: a price/earnings value that is ≤ 0 cannot win
the P/E metric — it is treated like an absent value on that side
(spec §4.2 metric 1). -/
def peEffective (pe : Option ℚ) : Option ℚ :=
  pe.bind (fun x => if x ≤ 0 then none else some x)

/-- Modelled from the spec: the fixed seven-metric catalog in its fixed
order — P/E (lower better), net profit margin, EPS growth, one-year
price change, free float (all higher better), then risk and dividend
track record through their ranks. -/
def compareWinners (ra rb : CompanyRecordM) : List Winner :=
  [resolveNumeric (peEffective ra.pe_ratio) (peEffective rb.pe_ratio) true,
    resolveNumeric ra.net_profit_margin rb.net_profit_margin false,
    resolveNumeric ra.eps_growth rb.eps_growth false,
    resolveNumeric ra.year_change_percent rb.year_change_percent false,
    resolveNumeric ra.free_float_percent rb.free_float_percent false,
    resolveRanked ra.risk_rank rb.risk_rank,
    resolveRanked ra.dividend_rank rb.dividend_rank]

/-- score_a: the count of metrics a wins (a natural number, so it is
non-negative by construction). -/
def scoreA (ra rb : CompanyRecordM) : ℕ :=
  (compareWinners ra rb).count .a

/-- score_b: the count of metrics b wins. -/
def scoreB (ra rb : CompanyRecordM) : ℕ :=
  (compareWinners ra rb).count .b

/-- The count of metrics resolved as a tie. -/
def tieCount (ra rb : CompanyRecordM) : ℕ :=
  (compareWinners ra rb).count .tie

theorem winner_count_partition (l : List Winner) :
    l.count .a + l.count .b + l.count .tie = l.length := by
  induction l with
  | nil => rfl
  | cons w ws ih => cases w <;> simp [List.count_cons, beq_iff_eq] <;> omega

/-- Claim C4: in every comparison the two scores (non-negative counts)
sum to at most 7, and the seven metrics less the two scores are exactly
the ties. -/
theorem compare_score_invariant : ∀ ra rb : CompanyRecordM,
    scoreA ra rb + scoreB ra rb ≤ 7 ∧
    scoreA ra rb + scoreB ra rb + tieCount ra rb = 7 ∧
    7 - (scoreA ra rb + scoreB ra rb) = tieCount ra rb := by
  intro ra rb
  have h := winner_count_partition (compareWinners ra rb)
  have hlen : (compareWinners ra rb).length = 7 := rfl
  rw [hlen] at h
  simp only [scoreA, scoreB, tieCount]
  omega

/-- From CompanyOverview: the 52-week range position
`range52 > 0 ? ((currentPrice - w52Low) / range52) * 100 : 50`, with
the nullable prices defaulted to 0 (`?? 0`). -/
def rangePercent (week52_high week52_low current : Option ℚ) : ℚ :=
  if 0 < week52_high.getD 0 - week52_low.getD 0 then
    ((current.getD 0 - week52_low.getD 0) /
      (week52_high.getD 0 - week52_low.getD 0)) * 100
  else 50

/-- From CompanyOverview: the marker's CSS left offset
`Math.min(Math.max(rangePercent, 2), 98)`. -/
def markerLeft (p : ℚ) : ℚ :=
  min (max p 2) 98

/-- Claim C9: the 52-week position is total — an equal high and low
(zero range) yields 50 rather than a division by zero, and the rendered
marker offset always lies in [2, 98]. -/
theorem week52_position_total : ∀ week52_high week52_low current : Option ℚ,
    (week52_high.getD 0 = week52_low.getD 0 →
      rangePercent week52_high week52_low current = 50) ∧
    2 ≤ markerLeft (rangePercent week52_high week52_low current) ∧
    markerLeft (rangePercent week52_high week52_low current) ≤ 98 := by
  intro h l c
  refine ⟨fun he => ?_, le_min (le_max_right _ _) (by norm_num), min_le_right _ _⟩
  simp [rangePercent, he]

/-- The zero-range branch of the position computation exercised at a
concrete input: a stock pinned at 10 for the whole year sits at 50%. -/
theorem week52_position_total_example :
    rangePercent (some 10) (some 10) (some 7) = 50 :=
  (week52_position_total (some 10) (some 10) (some 7)).1 rfl

/-- The TrendDataPoint of comparison-view.tsx: one year with the two
stocks' nullable values. -/
structure TrendDataPoint where
  year : String
  valueA : Option ℚ
  valueB : Option ℚ
  deriving DecidableEq, Repr

/-- The present values of one data point, valueA first:
`[d.valueA, d.valueB].filter((v) => v != null)`. -/
def trendVals (d : TrendDataPoint) : List ℚ :=
  d.valueA.toList ++ d.valueB.toList

/-- normaliseSeries' `allVals`: every present value of either stock in
any year of the series. -/
def allVals (data : List TrendDataPoint) : List ℚ :=
  (data.map trendVals).flatten

/-- Minimum of a value list (`Math.min(...allVals)`; the empty case is
unreachable behind the length guard). -/
def listMin : List ℚ → ℚ
  | [] => 0
  | v :: vs => vs.foldl min v

/-- Maximum of a value list (`Math.max(...allVals)`). -/
def listMax : List ℚ → ℚ
  | [] => 0
  | v :: vs => vs.foldl max v

/-- normaliseSeries' scale: `const range = max - min || 1` — the zero
range (all values equal) is replaced by 1 to avoid dividing by zero. -/
def seriesRange (data : List TrendDataPoint) : ℚ :=
  if listMax (allVals data) - listMin (allVals data) = 0 then 1
  else listMax (allVals data) - listMin (allVals data)

/-- One value mapped onto the 0–100 scale: `((v - min) / range) * 100`. -/
def normValue (data : List TrendDataPoint) (x : ℚ) : ℚ :=
  (x - listMin (allVals data)) / seriesRange data * 100

/-- From normaliseSeries in comparison-view.tsx: empty when the series
has no present value at all, else every present value is rescaled with
the min/max taken over both stocks across all years. -/
def normaliseSeries (data : List TrendDataPoint) : List TrendDataPoint :=
  if (allVals data).isEmpty then []
  else data.map (fun d =>
    ⟨d.year, d.valueA.map (normValue data), d.valueB.map (normValue data)⟩)

/-- JS Math.round: half-up rounding, `⌊x + 1/2⌋`. -/
def jsRound (q : ℚ) : ℤ :=
  ⌊q + 1 / 2⌋

/-- The CompositePoint of comparison-view.tsx (scores are the rounded
averages, hence integers). -/
structure CompositePoint where
  year : String
  scoreA : ℤ
  scoreB : ℤ
  metricsUsed : ℕ
  deriving DecidableEq, Repr

/-- JS `new Set` insertion-order dedup of the year labels. -/
def dedupFrom : List String → List String → List String
  | _, [] => []
  | seen, y :: ys => if y ∈ seen then dedupFrom seen ys else y :: dedupFrom (y :: seen) ys

/-- Insert into a sorted string list. -/
def insertStr (s : String) : List String → List String
  | [] => [s]
  | t :: ts => if strLe s t then s :: t :: ts else t :: insertStr s ts

/-- `Array.from(yearSet).sort()` as an insertion sort. -/
def sortStrings : List String → List String
  | [] => []
  | s :: ss => insertStr s (sortStrings ss)

/-- buildCompositeIndex's `normed`: each metric series normalised, empty
ones dropped. -/
def normedSeries (allSeries : List (List TrendDataPoint)) : List (List TrendDataPoint) :=
  (allSeries.map normaliseSeries).filter (fun s => !s.isEmpty)

/-- buildCompositeIndex's year set: every year occurring in any
normalised series, deduplicated and sorted. -/
def collectYears (normed : List (List TrendDataPoint)) : List String :=
  sortStrings (dedupFrom [] ((normed.map (fun s => s.map (fun d => d.year))).flatten))

/-- The loop body's A-side accumulation for one year: the valueA of the
point found for that year in each series that has one
(`series.find((d) => d.year === year)`, then `point?.valueA != null`).
The imperative sumA/countA pair is the sum and length of this list. -/
def collectA (normed : List (List TrendDataPoint)) (year : String) : List ℚ :=
  normed.filterMap (fun series =>
    (series.find? (fun d => d.year == year)).bind (fun d => d.valueA))

/-- The loop body's B-side accumulation for one year. -/
def collectB (normed : List (List TrendDataPoint)) (year : String) : List ℚ :=
  normed.filterMap (fun series =>
    (series.find? (fun d => d.year == year)).bind (fun d => d.valueB))

/-- One composite point: each side scores the rounded average of its
normalised values for that year, or 0 when it has none
(`countA > 0 ? Math.round(sumA / countA) : 0`). -/
def compositeFor (normed : List (List TrendDataPoint)) (year : String) : CompositePoint :=
  ⟨year,
    if 0 < (collectA normed year).length then
      jsRound ((collectA normed year).sum / (collectA normed year).length)
    else 0,
    if 0 < (collectB normed year).length then
      jsRound ((collectB normed year).sum / (collectB normed year).length)
    else 0,
    max (collectA normed year).length (collectB normed year).length⟩

/-- From buildCompositeIndex in comparison-view.tsx. -/
def buildCompositeIndex (allSeries : List (List TrendDataPoint)) : List CompositePoint :=
  if (normedSeries allSeries).isEmpty then []
  else (collectYears (normedSeries allSeries)).map (compositeFor (normedSeries allSeries))

theorem foldl_min_le (l : List ℚ) : ∀ a : ℚ, l.foldl min a ≤ a := by
  induction l with
  | nil => intro a; exact le_refl a
  | cons c cs ih => intro a; exact le_trans (ih (min a c)) (min_le_left a c)

theorem foldl_min_le_mem (l : List ℚ) : ∀ a x : ℚ, x ∈ l → l.foldl min a ≤ x := by
  induction l with
  | nil => intro _ _ hx; cases hx
  | cons c cs ih =>
    intro a x hx
    rcases List.mem_cons.mp hx with rfl | hx
    · exact le_trans (foldl_min_le cs (min a x)) (min_le_right a x)
    · exact ih (min a c) x hx

theorem listMin_le_mem (l : List ℚ) (x : ℚ) (hx : x ∈ l) : listMin l ≤ x := by
  cases l with
  | nil => cases hx
  | cons v vs =>
    rcases List.mem_cons.mp hx with rfl | hx
    · exact foldl_min_le vs x
    · exact foldl_min_le_mem vs v x hx

theorem le_foldl_max (l : List ℚ) : ∀ a : ℚ, a ≤ l.foldl max a := by
  induction l with
  | nil => intro a; exact le_refl a
  | cons c cs ih => intro a; exact le_trans (le_max_left a c) (ih (max a c))

theorem mem_le_foldl_max (l : List ℚ) : ∀ a x : ℚ, x ∈ l → x ≤ l.foldl max a := by
  induction l with
  | nil => intro _ _ hx; cases hx
  | cons c cs ih =>
    intro a x hx
    rcases List.mem_cons.mp hx with rfl | hx
    · exact le_trans (le_max_right a x) (le_foldl_max cs (max a x))
    · exact ih (max a c) x hx

theorem mem_le_listMax (l : List ℚ) (x : ℚ) (hx : x ∈ l) : x ≤ listMax l := by
  cases l with
  | nil => cases hx
  | cons v vs =>
    rcases List.mem_cons.mp hx with rfl | hx
    · exact le_foldl_max vs x
    · exact mem_le_foldl_max vs v x hx

theorem normValue_bounds (data : List TrendDataPoint) (x : ℚ)
    (hx : x ∈ allVals data) : 0 ≤ normValue data x ∧ normValue data x ≤ 100 := by
  have hmin : listMin (allVals data) ≤ x := listMin_le_mem _ x hx
  have hmax : x ≤ listMax (allVals data) := mem_le_listMax _ x hx
  unfold normValue seriesRange
  by_cases h : listMax (allVals data) - listMin (allVals data) = 0
  · have hx0 : x - listMin (allVals data) = 0 := le_antisymm (by linarith) (by linarith)
    rw [if_pos h, hx0]
    norm_num
  · have hpos : 0 < listMax (allVals data) - listMin (allVals data) :=
      lt_of_le_of_ne (by linarith) (Ne.symm h)
    rw [if_neg h]
    constructor
    · have := div_nonneg (by linarith : (0:ℚ) ≤ x - listMin (allVals data)) (le_of_lt hpos)
      linarith
    · have hdiv : (x - listMin (allVals data)) /
          (listMax (allVals data) - listMin (allVals data)) ≤ 1 :=
        (div_le_one hpos).mpr (by linarith)
      linarith

theorem mem_normaliseSeries_bounds (data : List TrendDataPoint)
    (d : TrendDataPoint) (hd : d ∈ normaliseSeries data) (x : ℚ) :
    (d.valueA = some x → 0 ≤ x ∧ x ≤ 100) ∧
    (d.valueB = some x → 0 ≤ x ∧ x ≤ 100) := by
  unfold normaliseSeries at hd
  by_cases he : (allVals data).isEmpty
  · rw [if_pos he] at hd
    cases hd
  rw [if_neg he] at hd
  rcases List.mem_map.mp hd with ⟨d0, hd0, rfl⟩
  constructor
  · intro hx
    rcases Option.map_eq_some'.mp hx with ⟨y, hy, rfl⟩
    have hyv : y ∈ allVals data := by
      refine List.mem_flatten.mpr ⟨trendVals d0, List.mem_map_of_mem trendVals hd0, ?_⟩
      unfold trendVals
      rw [hy]
      exact List.mem_append_left _ (List.mem_singleton.mpr rfl)
    exact normValue_bounds data y hyv
  · intro hx
    rcases Option.map_eq_some'.mp hx with ⟨y, hy, rfl⟩
    have hyv : y ∈ allVals data := by
      refine List.mem_flatten.mpr ⟨trendVals d0, List.mem_map_of_mem trendVals hd0, ?_⟩
      unfold trendVals
      rw [hy]
      exact List.mem_append_right _ (List.mem_singleton.mpr rfl)
    exact normValue_bounds data y hyv

theorem collectA_bounds (allSeries : List (List TrendDataPoint)) (year : String)
    (q : ℚ) (hq : q ∈ collectA (normedSeries allSeries) year) : 0 ≤ q ∧ q ≤ 100 := by
  rcases List.mem_filterMap.mp hq with ⟨series, hs, hfind⟩
  rcases Option.bind_eq_some.mp hfind with ⟨d, hd, hval⟩
  have hds : d ∈ series := List.mem_of_find?_eq_some hd
  have hsn : series ∈ (allSeries.map normaliseSeries) := (List.mem_filter.mp hs).1
  rcases List.mem_map.mp hsn with ⟨data, _, rfl⟩
  exact (mem_normaliseSeries_bounds data d hds q).1 hval

theorem collectB_bounds (allSeries : List (List TrendDataPoint)) (year : String)
    (q : ℚ) (hq : q ∈ collectB (normedSeries allSeries) year) : 0 ≤ q ∧ q ≤ 100 := by
  rcases List.mem_filterMap.mp hq with ⟨series, hs, hfind⟩
  rcases Option.bind_eq_some.mp hfind with ⟨d, hd, hval⟩
  have hds : d ∈ series := List.mem_of_find?_eq_some hd
  have hsn : series ∈ (allSeries.map normaliseSeries) := (List.mem_filter.mp hs).1
  rcases List.mem_map.mp hsn with ⟨data, _, rfl⟩
  exact (mem_normaliseSeries_bounds data d hds q).2 hval

theorem list_average_bounds (l : List ℚ) (hl : ∀ x ∈ l, 0 ≤ x ∧ x ≤ 100)
    (hne : 0 < l.length) : 0 ≤ l.sum / l.length ∧ l.sum / l.length ≤ 100 := by
  have hlen : (0:ℚ) < l.length := by exact_mod_cast hne
  have hsum : 0 ≤ l.sum := List.sum_nonneg (fun x hx => (hl x hx).1)
  have hub : l.sum ≤ l.length * 100 := by
    have := List.sum_le_card_nsmul l 100 (fun x hx => (hl x hx).2)
    simpa [nsmul_eq_mul] using this
  constructor
  · exact div_nonneg hsum (le_of_lt hlen)
  · rw [div_le_iff₀ hlen]
    linarith

theorem jsRound_bounds (q : ℚ) (h0 : 0 ≤ q) (h1 : q ≤ 100) :
    0 ≤ jsRound q ∧ jsRound q ≤ 100 := by
  unfold jsRound
  constructor
  · exact Int.le_floor.mpr (by push_cast; linarith)
  · have : ⌊q + 1 / 2⌋ < (101 : ℤ) := Int.floor_lt.mpr (by push_cast; linarith)
    omega

/-- Claim C10: every value normaliseSeries produces is inside [0, 100],
and every composite score buildCompositeIndex produces for either stock
in any year is inside [0, 100] (a side with no data for a year scores
0; a side with data scores the rounded average of values known to be
in [0, 100]). -/
theorem composite_index_bounds :
    (∀ data : List TrendDataPoint, ∀ d ∈ normaliseSeries data, ∀ x : ℚ,
      (d.valueA = some x → 0 ≤ x ∧ x ≤ 100) ∧
      (d.valueB = some x → 0 ≤ x ∧ x ≤ 100)) ∧
    (∀ allSeries : List (List TrendDataPoint), ∀ p ∈ buildCompositeIndex allSeries,
      (0 ≤ p.scoreA ∧ p.scoreA ≤ 100) ∧ (0 ≤ p.scoreB ∧ p.scoreB ≤ 100)) := by
  refine ⟨mem_normaliseSeries_bounds, fun allSeries p hp => ?_⟩
  unfold buildCompositeIndex at hp
  by_cases he : (normedSeries allSeries).isEmpty
  · rw [if_pos he] at hp
    cases hp
  rw [if_neg he] at hp
  rcases List.mem_map.mp hp with ⟨year, _, rfl⟩
  constructor
  · show (0 ≤ (compositeFor (normedSeries allSeries) year).scoreA ∧ _)
    unfold compositeFor
    by_cases hc : 0 < (collectA (normedSeries allSeries) year).length
    · rw [if_pos hc]
      have hb := list_average_bounds (collectA (normedSeries allSeries) year)
        (fun x hx => collectA_bounds allSeries year x hx) hc
      exact jsRound_bounds _ hb.1 hb.2
    · rw [if_neg hc]
      norm_num
  · show (0 ≤ (compositeFor (normedSeries allSeries) year).scoreB ∧ _)
    unfold compositeFor
    by_cases hc : 0 < (collectB (normedSeries allSeries) year).length
    · rw [if_pos hc]
      have hb := list_average_bounds (collectB (normedSeries allSeries) year)
        (fun x hx => collectB_bounds allSeries year x hx) hc
      exact jsRound_bounds _ hb.1 hb.2
    · rw [if_neg hc]
      norm_num

/-- The composite-index bounds exercised at a concrete input: one metric
series for one year with a single present value on the A side. -/
theorem composite_index_bounds_witness :
    (0 ≤ (compositeFor (normedSeries [[⟨"y", some 5, none⟩]]) "y").scoreA ∧
      (compositeFor (normedSeries [[⟨"y", some 5, none⟩]]) "y").scoreA ≤ 100) ∧
    (0 ≤ (compositeFor (normedSeries [[⟨"y", some 5, none⟩]]) "y").scoreB ∧
      (compositeFor (normedSeries [[⟨"y", some 5, none⟩]]) "y").scoreB ≤ 100) := by
  have h : buildCompositeIndex [[⟨"y", some 5, none⟩]] =
      [compositeFor (normedSeries [[⟨"y", some 5, none⟩]]) "y"] := rfl
  exact composite_index_bounds.2 [[⟨"y", some 5, none⟩]]
    (compositeFor (normedSeries [[⟨"y", some 5, none⟩]]) "y")
    (by rw [h]; exact List.mem_singleton.mpr rfl)

end StockAnalysis
